import Mathlib

/-!
Verification of the metric/transformer duality core of a Distance Metric
Learning library (`dml/dml_algorithm.py`).

The Python code is shallowly embedded.  Data matrices are row-major lists of
rows (`Mat`), mirroring numpy's dynamically shaped 2-D arrays; the per-instance
learned state (`M_`, `L_`, `X_` attributes, probed with `hasattr`) is an
explicit record of `Option`s; raising an exception is returning `Except.error`.
Every embedded method returns its result together with the instance state after
the call, so caching side effects are visible in the theorems.

External collaborators (`numpy.linalg.cholesky`, `dml_utils.metric_to_linear`,
`sklearn.utils.validation.check_array`, `sklearn.metrics.pairwise_kernels`, the
user-supplied kernel callables) are modelled at their documented interfaces;
`metric_to_linear` belongs to the repository but its source is not available,
so its numeric content is modelled from the specification's description of the
fallback factorization.
-/

namespace DML

/-- A dynamically shaped 2-D array: a list of rows, as numpy sees the data. -/
abbrev Mat (α : Type) := List (List α)

/-- Number of columns of a matrix: the length of its first row (0 when empty),
matching `X.shape[1]` for a well-formed array. -/
def numCols {α : Type} (A : Mat α) : ℕ := (A.headD []).length

/-- All rows have the same length: the well-formedness invariant of a numpy
2-D array. -/
def wellFormed {α : Type} (A : Mat α) : Prop :=
  ∀ row ∈ A, row.length = numCols A

/-- `A` is a well-formed `r × c` matrix. -/
def hasShape {α : Type} (A : Mat α) (r c : ℕ) : Prop :=
  A.length = r ∧ ∀ row ∈ A, row.length = c

instance {α : Type} (A : Mat α) (r c : ℕ) : Decidable (hasShape A r c) := by
  unfold hasShape; infer_instance

/-- Matrix transpose, `A.T` in the source.  Entry `(j, i)` of the result is
entry `(i, j)` of `A`; out-of-range accesses (which occur only on ill-formed
input) give `0`. -/
def transpose {α : Type} [Zero α] (A : Mat α) : Mat α :=
  (List.range (numCols A)).map (fun j => A.map (fun row => row.getD j 0))

/-- Dot product of two vectors (rows), truncating at the shorter one. -/
def dotL {α : Type} [Mul α] [AddCommMonoid α] (r c : List α) : α :=
  (List.zipWith (fun a b => a * b) r c).sum

/-- Matrix product `A.dot(B)` of the source: row `i`, column `j` of the result
is the dot product of row `i` of `A` with column `j` of `B`. -/
def matMul {α : Type} [Mul α] [AddCommMonoid α] (A B : Mat α) : Mat α :=
  A.map (fun r => (transpose B).map (fun c => dotL r c))

/-- The exceptions the embedded code can raise.  `notFitted` stands for the
`NameError` the source raises deliberately on unfitted instances (carrying the
source's message); `invalidInput` for validation/kernel errors; `linAlgError`
for `numpy.linalg.LinAlgError` from a failed Cholesky factorization;
`attributeError` for access to a missing attribute; `fuelExhausted` is an
artifact of the embedding of mutual dynamic dispatch (see `metricF`) and is
unreachable at the fuel the wrappers use. -/
inductive DMLError where
  | notFitted (msg : String)
  | invalidInput
  | linAlgError
  | attributeError
  | fuelExhausted
  deriving Repr, DecidableEq

/-- The learned per-instance state of a `DML_Algorithm`: the optional cached
Mahalanobis matrix `M_`, the optional cached transformation `L_`, and the
optional training snapshot `X_`.  `Option.none` models the attribute being
absent (`hasattr` false). -/
structure DMLState (α : Type) where
  M_ : Option (Mat α)
  L_ : Option (Mat α)
  X_ : Option (Mat α)
  deriving Repr, DecidableEq

section Duality

variable {α : Type} [Mul α] [AddCommMonoid α] [Zero α]

-- `chol` is the interface of `numpy.linalg.cholesky` as the source uses it: it
-- either produces a factor matrix or raises `LinAlgError` (`none`).  Claims
-- about the duality logic hold for every such function, so it is a parameter.
-- `m2l` is the interface of `dml_utils.metric_to_linear`: repository code
-- whose source is not under `src/`; it returns a factor or raises.
variable (chol : Mat α → Option (Mat α))
variable (m2l : Mat α → Except DMLError (Mat α))

mutual

/-- Embedding of `DML_Algorithm.metric` (dml_algorithm.py lines 22-38).
`self.metric()` and `self.transformer()` call each other through dynamic
dispatch; the `fuel` argument bounds that call depth (in the source it is at
most 2, because each callee returns immediately from its cached branch), and
the wrappers `metric`/`transformer` supply fuel 3, so `fuelExhausted` is
unreachable.  Returns the result of the call and the instance state after it.

Source:
```
if hasattr(self,'M_'):
    return self.M_
else:
    if hasattr(self,'L_'):
        L = self.transformer()
        self.M_ = L.T.dot(L)
        return self.M_
    else:
        raise NameError("Metric was not defined. Algorithm was not fitted.")
``` -/
def metricF : ℕ → DMLState α → Except DMLError (Mat α) × DMLState α
  | 0, s => (.error .fuelExhausted, s)
  | Nat.succ fuel, s =>
    match s.M_ with
    | some M => (.ok M, s)
    | none =>
      match s.L_ with
      | some _ =>
        match transformerF fuel s with
        | (.ok L, s1) =>
          let M := matMul (transpose L) L
          (.ok M, { s1 with M_ := some M })
        | (.error e, s1) => (.error e, s1)
      | none => (.error (.notFitted "Metric was not defined. Algorithm was not fitted."), s)

/-- Embedding of `DML_Algorithm.transformer` (dml_algorithm.py lines 40-63).

Source:
```
if hasattr(self,'L_'):
    return self.L_
else:
    if hasattr(self,'M_'):
        try:
            L = cholesky(self.metric()).T
            return L
        except:
            L = metric_to_linear(self.metric())
            return L
        self.L_ = L        # unreachable: both branches above return first
        return L
    else:
        raise NameError("Transformer was not defined. Algorithm was not fitted.")
```
The bare `except:` catches any exception raised inside the `try` block (a
`LinAlgError` from `cholesky`, or anything raised by the inner `self.metric()`
call).  The two trailing lines of the `try/except`'s suite are unreachable, so
the embedding mirrors the returns above them and never writes `L_`. -/
def transformerF : ℕ → DMLState α → Except DMLError (Mat α) × DMLState α
  | 0, s => (.error .fuelExhausted, s)
  | Nat.succ fuel, s =>
    match s.L_ with
    | some L => (.ok L, s)
    | none =>
      match s.M_ with
      | some _ =>
        let tryBlock : Except DMLError (Mat α) × DMLState α :=
          match metricF fuel s with
          | (.ok M, s1) =>
            match chol M with
            | some A => (.ok (transpose A), s1)
            | none => (.error .linAlgError, s1)
          | (.error e, s1) => (.error e, s1)
        match tryBlock with
        | (.ok L, s1) => (.ok L, s1)
        | (.error _, s1) =>
          match metricF fuel s1 with
          | (.ok M2, s2) =>
            match m2l M2 with
            | .ok L => (.ok L, s2)
            | .error e => (.error e, s2)
          | (.error e, s2) => (.error e, s2)
      | none => (.error (.notFitted "Transformer was not defined. Algorithm was not fitted."), s)

end

/-- `self.metric()` as called from outside: fuel 3 strictly dominates the
dynamic call depth of the source. -/
def metric (s : DMLState α) : Except DMLError (Mat α) × DMLState α :=
  metricF chol m2l 3 s

/-- `self.transformer()` as called from outside. -/
def transformer (s : DMLState α) : Except DMLError (Mat α) × DMLState α :=
  transformerF chol m2l 3 s

end Duality

section Projector

variable {α : Type} [Mul α] [AddCommMonoid α] [Zero α] [DecidableEq α]
variable (chol : Mat α → Option (Mat α))
variable (m2l : Mat α → Except DMLError (Mat α))

/-- Modelled from the spec: the external input validator
(`sklearn.utils.validation.check_array` with `accept_sparse=True`), section 6
of the spec — "given an arbitrary object claimed to be a numeric matrix,
returns a validated dense-or-sparse 2-D array or fails with an InvalidInput
error (non-finite values, wrong rank, ragged shape)".  With default options it
also requires at least one sample and one feature.  Over an exact field there
are no non-finite values, so the checks are: rectangular (not ragged),
non-empty in both dimensions. -/
def checkArray (X : Mat α) : Except DMLError (Mat α) :=
  if (∀ row ∈ X, row.length = numCols X) ∧ 0 < X.length ∧ 0 < numCols X then
    .ok X
  else
    .error .invalidInput

/-- Embedding of `DML_Algorithm.transform` (dml_algorithm.py lines 65-83).

Source:
```
if X is None:
    X = self.X_
else:
    X = check_array(X, accept_sparse=True)
L = self.transformer()
return X.dot(L.T)
```
Reading `self.X_` on a never-fitted instance would raise `AttributeError`. -/
def transform (s : DMLState α) (Xin : Option (Mat α)) :
    Except DMLError (Mat α) × DMLState α :=
  let body : Mat α → Except DMLError (Mat α) × DMLState α := fun X =>
    match transformer chol m2l s with
    | (.ok L, s1) => (.ok (matMul X (transpose L)), s1)
    | (.error e, s1) => (.error e, s1)
  match Xin with
  | none =>
    match s.X_ with
    | some X => body X
    | none => (.error .attributeError, s)
  | some X0 =>
    match checkArray X0 with
    | .ok X => body X
    | .error e => (.error e, s)

end Projector

section Kernel

variable {α : Type} [Mul α] [AddCommMonoid α] [Zero α] [DecidableEq α]

/-- The `kernel_` attribute of a `KernelDML_Algorithm`: either the name of a
built-in kernel (a Python string) or a user-supplied callable.  The callable is
modelled at the granularity the claims need: a function from the two data
matrices and the keyword-argument mapping to the kernel matrix. -/
inductive KernelSpec (α : Type) where
  | named (name : String)
  | callable (f : Mat α → Mat α → List (String × α) → Mat α)

/-- A Python keyword-argument mapping (`params` / `kernel_params_`), as an
association list. -/
abbrev ParamMap (α : Type) := List (String × α)

/-- The per-instance state of a `KernelDML_Algorithm`: the inherited duality
state plus the kernel configuration attributes read by `_get_kernel`. -/
structure KernelState (α : Type) extends DMLState α where
  kernel_ : KernelSpec α
  gamma_ : α
  degree_ : α
  coef0_ : α
  kernel_params_ : Option (ParamMap α)

/-- Modelled from the spec: the parameter table of the kernel-computation
collaborator (`sklearn.metrics.pairwise.KERNEL_PARAMS`), section 6 / 4.4 of
the spec — for each recognized kernel name, the keyword arguments it accepts;
`none` for an unknown name. -/
def KERNEL_PARAMS (name : String) : Option (List String) :=
  if name = "additive_chi2" then some []
  else if name = "chi2" then some ["gamma"]
  else if name = "cosine" then some []
  else if name = "linear" then some []
  else if name = "poly" then some ["gamma", "degree", "coef0"]
  else if name = "polynomial" then some ["gamma", "degree", "coef0"]
  else if name = "rbf" then some ["gamma"]
  else if name = "laplacian" then some ["gamma"]
  else if name = "sigmoid" then some ["gamma", "coef0"]
  else none

/-- Modelled from the spec: the external kernel-computation collaborator
(`sklearn.metrics.pairwise.pairwise_kernels`), section 6 of the spec — "given
two data matrices (or one, for self-kernel), a kernel identifier or callable,
and a filtered parameter mapping, returns the pairwise kernel (Gram) matrix".
Its parameter handling follows sklearn's documented contract: with the
`"precomputed"` sentinel it returns `X` itself; with a callable it applies the
callable to the full parameter mapping (no filtering); with a recognized
kernel name and `filterParams = true` it silently drops the parameters the
kernel does not accept, while with `filterParams = false` an inapplicable
parameter reaches the kernel function and raises; an unrecognized name
raises.  The numeric content of the named kernels is irrelevant to every
claim, so it is the parameter `evalNamed`. -/
def pairwiseKernels (evalNamed : String → ParamMap α → Mat α → Mat α → Mat α)
    (X : Mat α) (Yin : Option (Mat α)) (metric : KernelSpec α)
    (filterParams : Bool) (params : ParamMap α) : Except DMLError (Mat α) :=
  let Y := Yin.getD X
  match metric with
  | .callable f => .ok (f X Y params)
  | .named name =>
    if name = "precomputed" then .ok X
    else
      match KERNEL_PARAMS name with
      | some accepted =>
        if filterParams then
          .ok (evalNamed name (params.filter (fun p => accepted.contains p.1)) X Y)
        else if ∀ p ∈ params, accepted.contains p.1 then
          .ok (evalNamed name params X Y)
        else
          .error .invalidInput
      | none => .error .invalidInput

variable (evalNamed : String → ParamMap α → Mat α → Mat α → Mat α)

/-- Embedding of `KernelDML_Algorithm._get_kernel` (dml_algorithm.py lines
93-101).

Source:
```
if callable(self.kernel_):
    params = self.kernel_params_ or {}
else:
    params = {'gamma':self.gamma_,
              'degree':self.degree_,
              'coef0':self.coef0_}
return pairwise_kernels(X,Y,metric=self.kernel_,filter_params=True,**params)
```
Python's `self.kernel_params_ or {}` yields `{}` both when the attribute is
`None` and when it is an empty mapping, which is exactly `Option.getD` on this
model. -/
def getKernel (s : KernelState α) (X : Mat α) (Yin : Option (Mat α)) :
    Except DMLError (Mat α) :=
  let params : ParamMap α :=
    match s.kernel_ with
    | .callable _ => s.kernel_params_.getD []
    | .named _ => [("gamma", s.gamma_), ("degree", s.degree_), ("coef0", s.coef0_)]
  pairwiseKernels evalNamed X Yin s.kernel_ true params

/-- Embedding of the read-only property `KernelDML_Algorithm._pairwise`
(dml_algorithm.py lines 103-105): `return self.kernel_ == "precomputed"`.
A callable compared to a string with `==` is `False`.  Being a plain function
of the state, reading it cannot change any state. -/
def pairwiseFlag (s : KernelState α) : Bool :=
  match s.kernel_ with
  | .named name => name == "precomputed"
  | .callable _ => false

variable (chol : Mat α → Option (Mat α))
variable (m2l : Mat α → Except DMLError (Mat α))

/-- Embedding of `KernelDML_Algorithm.transform` (dml_algorithm.py lines
107-115).

Source:
```
if X is None:
    X=self.X_
else:
    X=check_array(X,accept_sparse=True)
L=self.transformer()
K=self._get_kernel(X,self.X_)
return K.dot(L.T)
```
`self.transformer()` is the inherited duality accessor acting on the base
state; `self.X_` is read again after it. -/
def kernelTransform (s : KernelState α) (Xin : Option (Mat α)) :
    Except DMLError (Mat α) × KernelState α :=
  let body : Mat α → Except DMLError (Mat α) × KernelState α := fun X =>
    match transformer chol m2l s.toDMLState with
    | (.ok L, s1) =>
      match s1.X_ with
      | some Xtr =>
        match getKernel evalNamed { s with toDMLState := s1 } X (some Xtr) with
        | .ok K => (.ok (matMul K (transpose L)), { s with toDMLState := s1 })
        | .error e => (.error e, { s with toDMLState := s1 })
      | none => (.error .attributeError, { s with toDMLState := s1 })
    | (.error e, s1) => (.error e, { s with toDMLState := s1 })
  match Xin with
  | none =>
    match s.X_ with
    | some X => body X
    | none => (.error .attributeError, s)
  | some X0 =>
    match checkArray X0 with
    | .ok X => body X
    | .error e => (.error e, s)

end Kernel

section Factorization

/-!
Numeric model of the factorization path of `transformer`, at fixed dimension
over `ℝ` (the list-level embedding leaves `cholesky` and `metric_to_linear`
abstract because the duality claims hold for every such collaborator; the
round-trip claim is about their numeric content, captured here).
-/

open Matrix

variable {d dr : ℕ}

open Classical in
/-- Model of `numpy.linalg.cholesky`: on a positive-definite input it returns
a lower-triangular factor `A` with `A * Aᴴ = M` (here built from the LDL
decomposition, `A = L·√D`); on any other input it raises `LinAlgError`
(`none`). -/
noncomputable def np_cholesky (M : Matrix (Fin d) (Fin d) ℝ) :
    Option (Matrix (Fin d) (Fin d) ℝ) :=
  letI : WellFoundedLT (Fin d) := inferInstance
  if hM : M.PosDef then
    some (LDL.lower hM * Matrix.diagonal (fun i => Real.sqrt (LDL.diagEntries hM i)))
  else none

open Classical in
/-- Modelled from the spec: `dml_utils.metric_to_linear`, the fallback
factorization — repository code not under `src/`.  Spec section 4.1: "fall
back to a robust factorization via eigen-decomposition: decompose `M` into
eigenvectors/eigenvalues, clip or otherwise handle non-positive eigenvalues,
and reconstruct `L` as `diag(sqrt(eigenvalues)) · eigenvectors^T`", raising a
distinguishable error only when the input is not square (impossible at this
type) or not symmetric. -/
noncomputable def metric_to_linear (M : Matrix (Fin d) (Fin d) ℝ) :
    Except DMLError (Matrix (Fin d) (Fin d) ℝ) :=
  if hM : M.IsHermitian then
    .ok (Matrix.diagonal (fun i => Real.sqrt (max (hM.eigenvalues i) 0)) *
      (star (hM.eigenvectorUnitary : Matrix (Fin d) (Fin d) ℝ)))
  else .error .invalidInput

/-- The factorization performed by `transformer` on an instance holding only
`M_` (dml_algorithm.py lines 53-59), at matrix type: try
`cholesky(M).T`, and on failure return `metric_to_linear(M)`. -/
noncomputable def factorizeMetric (M : Matrix (Fin d) (Fin d) ℝ) :
    Except DMLError (Matrix (Fin d) (Fin d) ℝ) :=
  match np_cholesky M with
  | some A => .ok Aᵀ
  | none => metric_to_linear M

/-- The metric derived from a transform by `metric` (dml_algorithm.py line
34): `self.M_ = L.T.dot(L)`, at matrix type. -/
def metricFromL (L : Matrix (Fin dr) (Fin d) ℝ) : Matrix (Fin d) (Fin d) ℝ :=
  Lᵀ * L

end Factorization

/-! ### Shape lemmas for the list-level matrices -/

section ShapeLemmas

variable {α : Type}

theorem length_transpose [Zero α] (A : Mat α) : (transpose A).length = numCols A := by
  simp [transpose]

theorem numCols_of_hasShape {A : Mat α} {r c : ℕ} (hA : hasShape A r c) (hr : 0 < r) :
    numCols A = c := by
  obtain ⟨hlen, hrow⟩ := hA
  cases A with
  | nil => simp at hlen; omega
  | cons h t => exact hrow h (by simp)

theorem numCols_transpose [Zero α] {A : Mat α} {r c : ℕ} (hA : hasShape A r c) (hc : 0 < c) :
    numCols (transpose A) = r := by
  obtain ⟨hlen, hrow⟩ := hA
  cases A with
  | nil =>
    simp [transpose, numCols] at *
    omega
  | cons h t =>
    have hl : h.length = c := hrow h (by simp)
    have hnc : numCols (h :: t) = c := by simp [numCols, hl]
    obtain ⟨c', rfl⟩ : ∃ c', c = c' + 1 := ⟨c - 1, by omega⟩
    simp only [transpose, hnc, List.range_succ_eq_map, List.map_cons, numCols, List.headD_cons]
    rw [hl]
    simp only [List.range_succ_eq_map, List.head?_cons, Option.map_some, Option.getD_some]
    simpa using hlen

/-- The shape of `X.dot(L.T)`: an `n × d` input against a `dr × d` transform
gives an `n × dr` output. -/
theorem hasShape_matMul_transpose [Mul α] [AddCommMonoid α] [Zero α] {X L : Mat α} {n d dr : ℕ}
    (hX : hasShape X n d) (hL : hasShape L dr d) (hd : 0 < d) :
    hasShape (matMul X (transpose L)) n dr := by
  constructor
  · simpa [matMul] using hX.1
  · intro row hrow
    simp only [matMul, List.mem_map] at hrow
    obtain ⟨r, _, rfl⟩ := hrow
    simp [length_transpose, numCols_transpose hL hd]

end ShapeLemmas

/-! ### The claims -/

section ClaimsDuality

/-- Helper: the full behavior of `transformer` on an instance holding only
`M_`: the result is the primary factor `cholesky(M).T` when `cholesky`
succeeds and the outcome of `metric_to_linear(M)` otherwise, and the state —
in particular the absent `L_` — is unchanged. -/
theorem transformer_M_only
    (chol : Mat ℚ → Option (Mat ℚ)) (m2l : Mat ℚ → Except DMLError (Mat ℚ))
    (M : Mat ℚ) (x : Option (Mat ℚ)) :
    transformer chol m2l ⟨some M, none, x⟩ =
      ((match chol M with
        | some A => .ok (transpose A)
        | none => m2l M), ⟨some M, none, x⟩) := by
  cases hc : chol M with
  | some A => simp [transformer, transformerF, metricF, hc]
  | none =>
    cases hm : m2l M with
    | ok L => simp [transformer, transformerF, metricF, hc, hm]
    | error e => simp [transformer, transformerF, metricF, hc, hm]

/-- C1 (supporting theorem for the caching defect).  On an instance whose
`M_` is present and `L_` absent, `transformer` derives the transform from
`M_` — `cholesky(M).T` when the primary factorization succeeds, the result of
`metric_to_linear(M)` otherwise — and returns it, but leaves the instance
state exactly as it was: in particular `L_` is still absent afterwards, so a
second call repeats the factorization.  The source's caching line
`self.L_ = L` sits after `return` statements in both branches of the
`try/except` and is unreachable. -/
theorem transformer_returns_factorization_without_caching
    (chol : Mat ℚ → Option (Mat ℚ)) (m2l : Mat ℚ → Except DMLError (Mat ℚ))
    (M : Mat ℚ) (x : Option (Mat ℚ)) :
    transformer chol m2l ⟨some M, none, x⟩ =
      ((match chol M with
        | some A => .ok (transpose A)
        | none => m2l M), ⟨some M, none, x⟩) :=
  transformer_M_only chol m2l M x

/-- C2.  `metric` returns the cached `M_` unchanged whenever `M_` is present
(whatever `L_` and `X_` hold); on an instance with `M_` absent and `L_`
present it obtains `L` from `transformer()`, computes `M = Lᵀ·L`, stores it in
`M_` and returns it; and a second call on the resulting instance returns the
identical cached matrix, with no further state change. -/
theorem metric_cached_and_derived
    (chol : Mat ℚ → Option (Mat ℚ)) (m2l : Mat ℚ → Except DMLError (Mat ℚ))
    (M L : Mat ℚ) (l x : Option (Mat ℚ)) :
    metric chol m2l ⟨some M, l, x⟩ = (.ok M, ⟨some M, l, x⟩) ∧
    metric chol m2l ⟨none, some L, x⟩ =
      (.ok (matMul (transpose L) L),
       ⟨some (matMul (transpose L) L), some L, x⟩) ∧
    metric chol m2l ⟨some (matMul (transpose L) L), some L, x⟩ =
      (.ok (matMul (transpose L) L),
       ⟨some (matMul (transpose L) L), some L, x⟩) := by
  refine ⟨?_, ?_, ?_⟩ <;> simp [metric, metricF, transformerF]

/-- C3.  On a never-fitted instance (neither `M_` nor `L_` set), `metric()`
and `transformer()` both raise the deliberately constructed NotFitted error —
`raise NameError(...)` with the respective message, not an `AttributeError`
from attribute probing (`hasattr` merely returns `False`) — and the instance
state is unchanged by the failed call. -/
theorem notFitted_on_unfitted_instance
    (chol : Mat ℚ → Option (Mat ℚ)) (m2l : Mat ℚ → Except DMLError (Mat ℚ))
    (x : Option (Mat ℚ)) :
    metric chol m2l ⟨none, none, x⟩ =
      (.error (.notFitted "Metric was not defined. Algorithm was not fitted."),
       ⟨none, none, x⟩) ∧
    transformer chol m2l ⟨none, none, x⟩ =
      (.error (.notFitted "Transformer was not defined. Algorithm was not fitted."),
       ⟨none, none, x⟩) ∧
    (∀ msg, DMLError.notFitted msg ≠ DMLError.attributeError) := by
  refine ⟨?_, ?_, ?_⟩
  · simp [metric, metricF]
  · simp [transformer, transformerF]
  · intro msg h
    cases h

/-- C6.  On an instance holding only `M_`, when the primary Cholesky-style
factorization fails (`cholesky` raises, i.e. `chol M = none`), `transformer`
absorbs the failure inside its bare `except:` and the call's outcome is
exactly the outcome of the fallback `metric_to_linear(M)`; the primary
failure is never surfaced to the caller, and the state is unchanged. -/
theorem transformer_fallback_absorbs_cholesky_failure
    (chol : Mat ℚ → Option (Mat ℚ)) (m2l : Mat ℚ → Except DMLError (Mat ℚ))
    (M : Mat ℚ) (x : Option (Mat ℚ)) (hfail : chol M = none) :
    transformer chol m2l ⟨some M, none, x⟩ = (m2l M, ⟨some M, none, x⟩) := by
  rw [transformer_M_only, hfail]

/-- Witness for C6: a concrete always-failing primary factorization together
with a concrete fallback, on the 1×1 metric `[[4]]`. -/
theorem transformer_fallback_absorbs_cholesky_failure_witness :
    transformer (α := ℚ) (fun _ => none) (fun A => .ok A) ⟨some [[4]], none, none⟩ =
      (.ok [[4]], ⟨some [[4]], none, none⟩) :=
  transformer_fallback_absorbs_cholesky_failure
    (fun _ => none) (fun A => .ok A) [[4]] none rfl

end ClaimsDuality

section ClaimsProjector

/-- Helper: the validator accepts a well-formed non-empty matrix and returns
it unchanged. -/
theorem checkArray_ok {X : Mat ℚ} {n d : ℕ}
    (hX : hasShape X n d) (hn : 0 < n) (hd : 0 < d) : checkArray X = .ok X := by
  have hnc : numCols X = d := numCols_of_hasShape hX hn
  unfold checkArray
  rw [if_pos]
  refine ⟨fun row hr => by rw [hX.2 row hr, hnc], ?_, ?_⟩
  · rw [hX.1]; exact hn
  · rw [hnc]; exact hd

/-- C4.  On any fitted instance — one whose `transformer()` call yields a
transform `L` of shape `dr × d` — with training snapshot `Xtr`:
`transform(X)` on a validated `n × d` input returns `X · Lᵀ`, of shape
`n × dr`, leaving the state unchanged; `transform()` with no argument applies
the same computation to the stored snapshot; and a supplied `X` that fails
validation raises InvalidInput. -/
theorem transform_projection_shape
    (chol : Mat ℚ → Option (Mat ℚ)) (m2l : Mat ℚ → Except DMLError (Mat ℚ))
    (s : DMLState ℚ) (L X Xtr : Mat ℚ) (n ntr d dr : ℕ)
    (htr : transformer chol m2l s = (.ok L, s))
    (hXs : s.X_ = some Xtr)
    (hL : hasShape L dr d) (hd : 0 < d)
    (hX : hasShape X n d) (hn : 0 < n)
    (hXtr : hasShape Xtr ntr d) :
    (transform chol m2l s (some X) = (.ok (matMul X (transpose L)), s) ∧
      hasShape (matMul X (transpose L)) n dr) ∧
    (transform chol m2l s none = (.ok (matMul Xtr (transpose L)), s) ∧
      hasShape (matMul Xtr (transpose L)) ntr dr) ∧
    (∀ Xbad, checkArray Xbad = .error .invalidInput →
      transform chol m2l s (some Xbad) = (.error .invalidInput, s)) := by
  refine ⟨⟨?_, hasShape_matMul_transpose hX hL hd⟩,
          ⟨?_, hasShape_matMul_transpose hXtr hL hd⟩, ?_⟩
  · simp [transform, checkArray_ok hX hn hd, htr]
  · simp [transform, hXs, htr]
  · intro Xbad hbad
    simp [transform, hbad]

/-- Witness for C4: a 1×2 transform (`dr = 1`, `d = 2`), a 2×2 input, a 1×2
snapshot, and a ragged invalid input. -/
theorem transform_projection_shape_witness :
    (transform (α := ℚ) (fun _ => none) (fun A => .ok A)
        ⟨none, some [[1, 2]], some [[5, 6]]⟩ (some [[1, 0], [3, 4]]) =
      (.ok (matMul [[1, 0], [3, 4]] (transpose [[1, 2]])),
       ⟨none, some [[1, 2]], some [[5, 6]]⟩)) ∧
    hasShape (matMul [[(1 : ℚ), 0], [3, 4]] (transpose [[1, 2]])) 2 1 ∧
    (transform (α := ℚ) (fun _ => none) (fun A => .ok A)
        ⟨none, some [[1, 2]], some [[5, 6]]⟩ (some [[1], [2, 3]]) =
      (.error .invalidInput, ⟨none, some [[1, 2]], some [[5, 6]]⟩)) := by
  have h := transform_projection_shape (fun _ => none) (fun A => .ok A)
    ⟨none, some [[1, 2]], some [[5, 6]]⟩ [[1, 2]] [[1, 0], [3, 4]] [[5, 6]] 2 1 2 1
    rfl rfl
    (by decide) (by decide) (by decide) (by decide) (by decide)
  exact ⟨h.1.1, h.1.2, h.2.2 [[1], [2, 3]] rfl⟩

end ClaimsProjector

section ClaimsKernel

/-- C5.  On a fitted kernel-variant instance (transform `L`, snapshot `Xtr`),
`transform(X)` validates (or defaults) the input, computes the kernel matrix
`K` between it and the stored snapshot via `_get_kernel`, obtains `L` via
`transformer()`, and returns `K · Lᵀ`, leaving the state unchanged. -/
theorem kernelTransform_projects_kernel_matrix
    (evalNamed : String → ParamMap ℚ → Mat ℚ → Mat ℚ → Mat ℚ)
    (chol : Mat ℚ → Option (Mat ℚ)) (m2l : Mat ℚ → Except DMLError (Mat ℚ))
    (mo : Option (Mat ℚ)) (kp : Option (ParamMap ℚ))
    (L X Xtr K K0 : Mat ℚ) (k : KernelSpec ℚ) (γ δ c : ℚ)
    (hX : checkArray X = .ok X)
    (hK : getKernel evalNamed ⟨⟨mo, some L, some Xtr⟩, k, γ, δ, c, kp⟩ X (some Xtr) = .ok K)
    (hK0 : getKernel evalNamed ⟨⟨mo, some L, some Xtr⟩, k, γ, δ, c, kp⟩ Xtr (some Xtr) = .ok K0) :
    kernelTransform evalNamed chol m2l ⟨⟨mo, some L, some Xtr⟩, k, γ, δ, c, kp⟩ (some X) =
      (.ok (matMul K (transpose L)), ⟨⟨mo, some L, some Xtr⟩, k, γ, δ, c, kp⟩) ∧
    kernelTransform evalNamed chol m2l ⟨⟨mo, some L, some Xtr⟩, k, γ, δ, c, kp⟩ none =
      (.ok (matMul K0 (transpose L)), ⟨⟨mo, some L, some Xtr⟩, k, γ, δ, c, kp⟩) := by
  constructor
  · simp [kernelTransform, transformer, transformerF, hX, hK]
  · simp [kernelTransform, transformer, transformerF, hK0]

/-- Witness for C5: a concrete callable kernel (the linear kernel) on a 2×2
input and a 1×2 training snapshot, with a 1×2 transform. -/
theorem kernelTransform_projects_kernel_matrix_witness :
    kernelTransform (fun _ _ A _ => A) (fun _ => none) (fun A => .ok A)
        ⟨⟨none, some [[1, 2]], some [[5, 6]]⟩,
          .callable (fun A B _ => matMul A (transpose B)), 1, 1, 1, none⟩
        (some [[(1 : ℚ), 0], [3, 4]]) =
      (.ok (matMul (matMul [[1, 0], [3, 4]] (transpose [[5, 6]])) (transpose [[1, 2]])),
       ⟨⟨none, some [[1, 2]], some [[5, 6]]⟩,
         .callable (fun A B _ => matMul A (transpose B)), 1, 1, 1, none⟩) :=
  (kernelTransform_projects_kernel_matrix (fun _ _ A _ => A)
    (fun _ => none) (fun A => .ok A) none none
    [[1, 2]] [[1, 0], [3, 4]] [[5, 6]]
    (matMul [[1, 0], [3, 4]] (transpose [[5, 6]]))
    (matMul [[5, 6]] (transpose [[5, 6]]))
    (.callable (fun A B _ => matMul A (transpose B))) 1 1 1
    rfl rfl rfl).1

/-- C7.  Kernel parameter resolution in `_get_kernel` passes exactly one of
two parameter shapes to the kernel computation: for a callable kernel, the
configured `kernel_params_` mapping goes through unfiltered as the callable's
keyword arguments; for a named kernel, the mapping
`{gamma: gamma_, degree: degree_, coef0: coef0_}` is passed with
`filter_params=True`, so the kernel computation receives exactly the entries
the named kernel accepts — inapplicable options are silently dropped and the
call succeeds instead of raising. -/
theorem getKernel_parameter_resolution
    (evalNamed : String → ParamMap ℚ → Mat ℚ → Mat ℚ → Mat ℚ)
    (s : KernelState ℚ) (X Y : Mat ℚ) :
    (∀ f pm, s.kernel_ = .callable f → s.kernel_params_ = some pm →
      getKernel evalNamed s X (some Y) = .ok (f X Y pm)) ∧
    (∀ n acc, s.kernel_ = .named n → n ≠ "precomputed" → KERNEL_PARAMS n = some acc →
      getKernel evalNamed s X (some Y) =
        .ok (evalNamed n
          (([("gamma", s.gamma_), ("degree", s.degree_), ("coef0", s.coef0_)] :
              ParamMap ℚ).filter (fun p => acc.contains p.1)) X Y)) := by
  constructor
  · intro f pm hk hp
    simp [getKernel, pairwiseKernels, hk, hp]
  · intro n acc hk hn hacc
    simp [getKernel, pairwiseKernels, hk, hn, hacc]

/-- Witness for C7: a callable kernel with the free-form mapping
`{a: 1}` passed through unfiltered, and the named kernel `"rbf"` (which
accepts only `gamma`) with `gamma_=2, degree_=3, coef0_=1`, for which the
kernel computation receives exactly `{gamma: 2}` — `degree` and `coef0` are
dropped — and the call succeeds. -/
theorem getKernel_parameter_resolution_witness :
    getKernel (fun _ _ A _ => A)
        ⟨⟨none, none, none⟩, .callable (fun _ _ p => [p.map Prod.snd]), 2, 3, 1,
          some [("a", 1)]⟩ [[(1 : ℚ)]] (some [[2]]) =
      .ok [[(1 : ℚ)]] ∧
    getKernel (fun _ _ A _ => A)
        ⟨⟨none, none, none⟩, .named "rbf", 2, 3, 1, some [("a", 1)]⟩
        [[(1 : ℚ)]] (some [[2]]) =
      .ok [[(1 : ℚ)]] := by
  constructor
  · exact (getKernel_parameter_resolution (fun _ _ A _ => A)
      ⟨⟨none, none, none⟩, .callable (fun _ _ p => [p.map Prod.snd]), 2, 3, 1,
        some [("a", 1)]⟩ [[1]] [[2]]).1 _ _ rfl rfl
  · exact (getKernel_parameter_resolution (fun _ _ A _ => A)
      ⟨⟨none, none, none⟩, .named "rbf", 2, 3, 1, some [("a", 1)]⟩
      [[1]] [[2]]).2 "rbf" ["gamma"] rfl (by decide) rfl

/-- C9.  The read-only `_pairwise` property is `True` exactly when `kernel_`
is the sentinel string `"precomputed"`; any other kernel name, and any
callable, gives `False`.  The property is a pure function of the instance
state, so reading it changes no state. -/
theorem pairwiseFlag_iff_precomputed (s : KernelState ℚ) :
    pairwiseFlag s = true ↔ s.kernel_ = KernelSpec.named "precomputed" := by
  cases h : s.kernel_ with
  | named n => simp [pairwiseFlag, h]
  | callable f => simp [pairwiseFlag, h]

/-- C10 (implicit).  For a callable kernel whose `kernel_params_` is `None`
(or an empty, falsy mapping), `self.kernel_params_ or {}` resolves to the
empty mapping, and the kernel computation is invoked with it and succeeds —
an unset `kernel_params_` is a supported configuration. -/
theorem getKernel_callable_defaults_empty_params
    (evalNamed : String → ParamMap ℚ → Mat ℚ → Mat ℚ → Mat ℚ)
    (b : DMLState ℚ) (f : Mat ℚ → Mat ℚ → ParamMap ℚ → Mat ℚ)
    (γ δ c : ℚ) (X Y : Mat ℚ) :
    getKernel evalNamed ⟨b, .callable f, γ, δ, c, none⟩ X (some Y) = .ok (f X Y []) ∧
    getKernel evalNamed ⟨b, .callable f, γ, δ, c, some []⟩ X (some Y) = .ok (f X Y []) :=
  ⟨rfl, rfl⟩

end ClaimsKernel

section ClaimRoundtrip

open Matrix

/-- Helper: the factor returned by the Cholesky model reconstructs a
positive-definite input: `A * Aᴴ = M`. -/
theorem np_cholesky_spec {d : ℕ} {M A : Matrix (Fin d) (Fin d) ℝ}
    (hpd : M.PosDef) (hA : np_cholesky M = some A) : A * Aᴴ = M := by
  letI : WellFoundedLT (Fin d) := inferInstance
  have hbridge : LDL.diag hpd = Matrix.diagonal (LDL.diagEntries hpd) := by
    unfold LDL.diag
    ext i j
    simp [Matrix.diagonal]
  have hnn : ∀ i, 0 ≤ LDL.diagEntries hpd i := by
    have h1 : (LDL.diag hpd).PosSemidef := by
      rw [LDL.diag_eq_lowerInv_conj]
      exact hpd.posSemidef.mul_mul_conjTranspose_same _
    rw [hbridge] at h1
    exact fun i => Matrix.posSemidef_diagonal_iff.mp h1 i
  rw [np_cholesky] at hA
  rw [dif_pos hpd] at hA
  obtain rfl : LDL.lower hpd *
      Matrix.diagonal (fun i => Real.sqrt (LDL.diagEntries hpd i)) = A :=
    Option.some.inj hA
  rw [conjTranspose_mul, diagonal_conjTranspose]
  have hstar : (star fun i => Real.sqrt (LDL.diagEntries hpd i)) =
      fun i => Real.sqrt (LDL.diagEntries hpd i) := by
    funext i; exact star_trivial _
  rw [hstar, Matrix.mul_assoc, ← Matrix.mul_assoc
    (Matrix.diagonal fun i => Real.sqrt (LDL.diagEntries hpd i)),
    diagonal_mul_diagonal]
  have hdd : (fun i => Real.sqrt (LDL.diagEntries hpd i) *
      Real.sqrt (LDL.diagEntries hpd i)) = LDL.diagEntries hpd := by
    funext i; exact Real.mul_self_sqrt (hnn i)
  rw [hdd, ← Matrix.mul_assoc, ← hbridge]
  exact LDL.lower_conj_diag hpd

/-- Helper: the fallback factorization reconstructs a positive-semidefinite
input: when `M` is PSD, `metric_to_linear M` succeeds with a factor `L`
satisfying `Lᵀ * L = M`. -/
theorem metric_to_linear_spec {d : ℕ} {M : Matrix (Fin d) (Fin d) ℝ}
    (hpsd : M.PosSemidef) :
    metric_to_linear M =
      .ok (Matrix.diagonal (fun i => Real.sqrt (max (hpsd.1.eigenvalues i) 0)) *
        (star (hpsd.1.eigenvectorUnitary : Matrix (Fin d) (Fin d) ℝ))) ∧
    (Matrix.diagonal (fun i => Real.sqrt (max (hpsd.1.eigenvalues i) 0)) *
        (star (hpsd.1.eigenvectorUnitary : Matrix (Fin d) (Fin d) ℝ)))ᵀ *
      (Matrix.diagonal (fun i => Real.sqrt (max (hpsd.1.eigenvalues i) 0)) *
        (star (hpsd.1.eigenvectorUnitary : Matrix (Fin d) (Fin d) ℝ))) = M := by
  have hherm : M.IsHermitian := hpsd.1
  constructor
  · rw [metric_to_linear, dif_pos hherm]
  · set U : Matrix (Fin d) (Fin d) ℝ := (hherm.eigenvectorUnitary : Matrix (Fin d) (Fin d) ℝ)
    set f : Fin d → ℝ := fun i => Real.sqrt (max (hherm.eigenvalues i) 0) with hf
    rw [← conjTranspose_eq_transpose_of_trivial, conjTranspose_mul,
      star_eq_conjTranspose U, conjTranspose_conjTranspose, diagonal_conjTranspose]
    have hstar : star f = f := by funext i; exact star_trivial _
    rw [hstar, Matrix.mul_assoc, ← Matrix.mul_assoc (Matrix.diagonal f),
      diagonal_mul_diagonal]
    have hff : (fun i => f i * f i) = hherm.eigenvalues := by
      funext i
      have h0 : 0 ≤ hherm.eigenvalues i := hpsd.eigenvalues_nonneg i
      have hmax : max (hherm.eigenvalues i) 0 = hherm.eigenvalues i := max_eq_left h0
      simp only [hf, hmax]
      exact Real.mul_self_sqrt h0
    rw [hff, ← Matrix.mul_assoc, ← star_eq_conjTranspose U]
    have hspec := hherm.spectral_theorem
    rw [RCLike.ofReal_real_eq_id, Function.id_comp] at hspec
    exact hspec.symm

/-- C8.  Duality round-trip: starting from any transform `L₀` (the state of
an instance fitted with `L_` only), deriving the metric `M = L₀ᵀ·L₀` as
`metric()` does, and then deriving a transform from that `M` exactly as
`transformer()` does on an instance holding only `M` (primary Cholesky
factorization, falling back to `metric_to_linear` when it fails), succeeds
and yields `L'` with `L'ᵀ · L' = M` — exactly, in the real-arithmetic model
(the "within numerical tolerance" of the floating-point original), even
though `L'` need not equal `L₀`. -/
theorem duality_roundtrip (d dr : ℕ) (L0 : Matrix (Fin dr) (Fin d) ℝ) :
    ∃ L', factorizeMetric (metricFromL L0) = .ok L' ∧
      L'ᵀ * L' = metricFromL L0 := by
  classical
  have hpsd : (metricFromL L0).PosSemidef := by
    have h := Matrix.posSemidef_conjTranspose_mul_self L0
    rwa [conjTranspose_eq_transpose_of_trivial] at h
  by_cases hpd : (metricFromL L0).PosDef
  · -- the primary Cholesky-style factorization succeeds
    letI : WellFoundedLT (Fin d) := inferInstance
    have hsome : np_cholesky (metricFromL L0) =
        some (LDL.lower hpd *
          Matrix.diagonal (fun i => Real.sqrt (LDL.diagEntries hpd i))) := by
      rw [np_cholesky, dif_pos hpd]
    refine ⟨(LDL.lower hpd *
      Matrix.diagonal (fun i => Real.sqrt (LDL.diagEntries hpd i)))ᵀ, ?_, ?_⟩
    · rw [factorizeMetric, hsome]
    · rw [transpose_transpose, ← conjTranspose_eq_transpose_of_trivial]
      exact np_cholesky_spec hpd hsome
  · -- the primary factorization fails; the fallback reconstructs `M`
    have hnone : np_cholesky (metricFromL L0) = none := by
      rw [np_cholesky, dif_neg hpd]
    obtain ⟨hml, hrec⟩ := metric_to_linear_spec hpsd
    refine ⟨_, ?_, hrec⟩
    rw [factorizeMetric, hnone, hml]

end ClaimRoundtrip

end DML
